import Mathlib

/-!
Shallow embedding of the RabbitMQ client of `pkg/infrastructure/rabbitmq`
(file `rabbitmq.go`) together with the message-model types of the `models`
package (trace carrier, publish/consume/queue options).  Broker interactions
are modelled as explicit operation traces; the success or failure of each
channel call is supplied by an oracle argument.
-/

/-- Values stored in an AMQP header or argument table (Go `amqp.Table`,
a `map` from `string` to `interface`): strings, integers, an explicit
nil entry, and arbitrary other caller-supplied values kept opaque. -/
inductive AmqpValue where
  | vStr (s : String)
  | vInt (n : Int)
  | vNil
  | vOther (tag : Nat)
deriving DecidableEq

/-- An AMQP table (Go `amqp.Table`), modelled as an association list whose
first occurrence of a key is the binding of that key. -/
abbrev Table := List (String × AmqpValue)

/-- The empty table (Go `make(amqp.Table)`). -/
def Table.empty : Table := []

/-- Lookup of a key in a table (Go map indexing, `t[k]`): the first binding
of the key, if any. -/
def Table.get : Table → String → Option AmqpValue
  | [], _ => none
  | (k1, v1) :: rest, key => if k1 = key then some v1 else Table.get rest key

/-- Update of a key in a table (Go map assignment, `t[k] = v`): replaces the
first binding of the key, or appends a new binding. -/
def Table.set : Table → String → AmqpValue → Table
  | [], key, v => [(key, v)]
  | (k1, v1) :: rest, key, v =>
    if k1 = key then (key, v) :: rest else (k1, v1) :: Table.set rest key v

/-- Go `args[k] == nil` on a table: true when the key is absent or bound to
an explicit nil entry. -/
def Table.isNilAt (t : Table) (key : String) : Bool :=
  match Table.get t key with
  | none => true
  | some AmqpValue.vNil => true
  | some _ => false

theorem Table.get_set_self (t : Table) (key : String) (v : AmqpValue) :
    Table.get (Table.set t key v) key = some v := by
  induction t with
  | nil => simp [Table.set, Table.get]
  | cons hd tl ih =>
    obtain ⟨k1, v1⟩ := hd
    by_cases h : k1 = key
    · simp [Table.set, Table.get, h]
    · simp [Table.set, Table.get, h, ih]

theorem Table.get_set_other (t : Table) (key k : String) (v : AmqpValue)
    (h : k ≠ key) : Table.get (Table.set t key v) k = Table.get t k := by
  have hks : ¬key = k := fun hk => h hk.symm
  induction t with
  | nil => simp [Table.set, Table.get, hks]
  | cons hd tl ih =>
    obtain ⟨k1, v1⟩ := hd
    by_cases h1 : k1 = key
    · subst h1
      simp [Table.set, Table.get, hks]
    · by_cases h2 : k1 = k
      · subst h2
        simp [Table.set, Table.get, h1]
      · simp [Table.set, Table.get, h1, h2, ih]

theorem Table.get_ite (c : Prop) [Decidable c] (t1 t2 : Table) (k : String) :
    Table.get (if c then t1 else t2) k = if c then Table.get t1 k else Table.get t2 k := by
  split_ifs <;> rfl

/-- Trace-context carrier over AMQP headers (Go `models.AMQPCarrier`); the
`Headers` field is `none` when the underlying Go map is nil. -/
structure AMQPCarrier where
  Headers : Option Table
deriving DecidableEq

/-- Go `AMQPCarrier.Get`: a nil header map yields the empty string; a
present, string-typed value is returned; everything else yields the empty
string. -/
def AMQPCarrier.Get (c : AMQPCarrier) (key : String) : String :=
  match c.Headers with
  | none => ""
  | some t =>
    match Table.get t key with
    | some (AmqpValue.vStr s) => s
    | some (AmqpValue.vInt _) => ""
    | some AmqpValue.vNil => ""
    | some (AmqpValue.vOther _) => ""
    | none => ""

/-- Go `AMQPCarrier.Set`: a nil header map is replaced by a fresh one, then
the key is bound to the string value. -/
def AMQPCarrier.Set (c : AMQPCarrier) (key val : String) : AMQPCarrier :=
  match c.Headers with
  | none => { Headers := some (Table.set Table.empty key (AmqpValue.vStr val)) }
  | some t => { Headers := some (Table.set t key (AmqpValue.vStr val)) }

/-- Manual acknowledgment operations sent on a delivery (Go `delivery.Ack`
and `delivery.Nack`). -/
inductive AckEvent where
  | ack (multiple : Bool)
  | nack (multiple requeue : Bool)
deriving DecidableEq

/-- Acknowledgments sent for one delivery by the consume-loop body of
`ConsumeWithOptions` (rabbitmq.go lines 327 to 353): when the caller handler
returns an error and auto-ack is off, a single `Nack(false, true)`; on
success and auto-ack off, a single `Ack(false)`; nothing when auto-ack is
on.  `handlerErr` records whether the handler returned a non-nil error. -/
def ackEventsFor (autoAck handlerErr : Bool) : List AckEvent :=
  if handlerErr then
    if !autoAck then [AckEvent.nack false true] else []
  else
    if !autoAck then [AckEvent.ack false] else []

/-- Number of positive acknowledgments in a list of ack events. -/
def countAck (es : List AckEvent) : Nat :=
  es.countP fun e => match e with | AckEvent.ack _ => true | _ => false

/-- Number of negative acknowledgments with the given requeue flag. -/
def countNack (requeue : Bool) (es : List AckEvent) : Nat :=
  es.countP fun e => match e with | AckEvent.nack _ r => r = requeue | _ => false

/-- C1: with auto-ack off, a failing handler yields exactly one
negative acknowledgment with requeue true, no requeue-false nack and no
positive acknowledgment; a succeeding handler yields exactly one positive
acknowledgment and no negative acknowledgment; with auto-ack on, nothing
manual is sent in either case. -/
theorem consume_ack_discipline (autoAck handlerErr : Bool) :
    (autoAck = false → handlerErr = true →
      countNack true (ackEventsFor autoAck handlerErr) = 1 ∧
      countNack false (ackEventsFor autoAck handlerErr) = 0 ∧
      countAck (ackEventsFor autoAck handlerErr) = 0) ∧
    (autoAck = false → handlerErr = false →
      countAck (ackEventsFor autoAck handlerErr) = 1 ∧
      countNack true (ackEventsFor autoAck handlerErr) = 0 ∧
      countNack false (ackEventsFor autoAck handlerErr) = 0) ∧
    (autoAck = true → ackEventsFor autoAck handlerErr = []) := by
  cases autoAck <;> cases handlerErr <;> decide

/-- Concrete instance of the acknowledgment discipline: one nack for a
failed handler, one ack for a successful handler, nothing under auto-ack. -/
theorem consume_ack_discipline_witness :
    countNack true (ackEventsFor false true) = 1 ∧
    countAck (ackEventsFor false false) = 1 ∧
    ackEventsFor true true = [] :=
  ⟨((consume_ack_discipline false true).1 rfl rfl).1,
   ((consume_ack_discipline false false).2.1 rfl rfl).1,
   (consume_ack_discipline true true).2.2 rfl⟩

/-- Events of the consume-loop trace: the invocation of the caller handler
on delivery number `i`, and the manual acknowledgment operations sent for
delivery `i`. -/
inductive ConsumeEvent where
  | handlerCall (i : Nat)
  | ack (i : Nat) (multiple : Bool)
  | nack (i : Nat) (multiple requeue : Bool)
deriving DecidableEq

/-- Tags an acknowledgment operation with the number of the delivery it is
sent for. -/
def tagAck (i : Nat) : AckEvent → ConsumeEvent
  | AckEvent.ack m => ConsumeEvent.ack i m
  | AckEvent.nack m r => ConsumeEvent.nack i m r

/-- Trace of one iteration of the consume-loop body (rabbitmq.go lines 276
to 355): the caller handler is called inline, then the ack or nack for the
same delivery is sent, all inside the same goroutine. -/
def deliveryTrace (autoAck : Bool) (i : Nat) (handlerErr : Bool) : List ConsumeEvent :=
  ConsumeEvent.handlerCall i :: (ackEventsFor autoAck handlerErr).map (tagAck i)

/-- The single background goroutine started by `ConsumeWithOptions`
(rabbitmq.go lines 275 to 357) ranges over the delivery stream with a plain
`for` loop, so the trace it produces is the in-order concatenation of the
per-delivery iteration traces.  `results` lists, in arrival order, whether
each delivery handler returns an error; the `Nat` argument is the number of
the next delivery. -/
def consumeFrom (autoAck : Bool) : Nat → List Bool → List ConsumeEvent
  | _, [] => []
  | i, err :: rest => deliveryTrace autoAck i err ++ consumeFrom autoAck (i + 1) rest

/-- Trace of the consume loop over a whole delivery stream, modelled as
already-arrived (concurrently-arriving) messages. -/
def consumeLoopTrace (autoAck : Bool) (results : List Bool) : List ConsumeEvent :=
  consumeFrom autoAck 0 results

/-- Formalization of the claim that each delivery is dispatched as an
independent concurrent unit of work: the dispatch (handler call) of any
delivery is never ordered after the completed handling (the positive
acknowledgment) of a different delivery of the same stream. -/
def independentDispatch (autoAck : Bool) (results : List Bool) : Prop :=
  ∀ i j p q, i ≠ j →
    (consumeLoopTrace autoAck results).get? p = some (ConsumeEvent.ack i false) →
    (consumeLoopTrace autoAck results).get? q = some (ConsumeEvent.handlerCall j) →
    q < p

/-- C2 counterexample: for a manual-ack consumer with two deliveries whose
handlers both succeed, the handler call of delivery 1 comes only after the
acknowledgment of delivery 0, so delivery handling is not an independent
concurrent unit of work. -/
theorem consume_dispatch_not_independent :
    ¬ independentDispatch false [false, false] := by
  intro h
  have h2 := h 0 1 1 2 (by decide) (by decide) (by decide)
  omega

theorem handlerCall_mem_consumeFrom (autoAck : Bool) :
    ∀ (results : List Bool) (s k : Nat), k < results.length →
      ConsumeEvent.handlerCall (s + k) ∈ consumeFrom autoAck s results := by
  intro results
  induction results with
  | nil => intro s k hk; simp at hk
  | cons r rest ih =>
    intro s k hk
    cases k with
    | zero => simp [consumeFrom, deliveryTrace]
    | succ k2 =>
      have hm := ih (s + 1) k2 (by simpa using hk)
      have heq : s + (k2 + 1) = (s + 1) + k2 := by omega
      rw [heq]
      simp only [consumeFrom]
      exact List.mem_append_right _ hm

theorem consumeFrom_sequential (autoAck : Bool) :
    ∀ (results : List Bool) (s i j : Nat) (ri : Bool), i < j → j < results.length →
      results.get? i = some ri →
      (deliveryTrace autoAck (s + i) ri ++ [ConsumeEvent.handlerCall (s + j)]).Sublist
        (consumeFrom autoAck s results) := by
  intro results
  induction results with
  | nil => intro s i j ri hij hj hri; simp at hj
  | cons r rest ih =>
    intro s i j ri hij hj hri
    simp only [consumeFrom]
    cases i with
    | zero =>
      have hr : r = ri := by simpa using hri
      subst hr
      simp only [Nat.add_zero]
      apply List.Sublist.append_left
      apply List.singleton_sublist.mpr
      cases j with
      | zero => omega
      | succ j2 =>
        have hm := handlerCall_mem_consumeFrom autoAck rest (s + 1) j2 (by simpa using hj)
        have heq : s + (j2 + 1) = (s + 1) + j2 := by omega
        rw [heq]
        exact hm
    | succ i2 =>
      cases j with
      | zero => omega
      | succ j2 =>
        have hsub := ih (s + 1) i2 j2 ri (by omega) (by simpa using hj) (by simpa using hri)
        have e1 : s + (i2 + 1) = (s + 1) + i2 := by omega
        have e2 : s + (j2 + 1) = (s + 1) + j2 := by omega
        rw [e1, e2]
        exact hsub.trans (List.sublist_append_right _ _)

/-- C2 amended: the whole consume loop runs in one background goroutine and
handles deliveries strictly sequentially; for any two deliveries i before j
of the stream, the full handling block of delivery i (handler call followed
by its ack or nack) occurs, in order, entirely before the handler call of
delivery j. -/
theorem consume_loop_sequential (autoAck : Bool) (results : List Bool)
    (i j : Nat) (ri : Bool) (hij : i < j) (hj : j < results.length)
    (hri : results.get? i = some ri) :
    (deliveryTrace autoAck i ri ++ [ConsumeEvent.handlerCall j]).Sublist
      (consumeLoopTrace autoAck results) := by
  have hs := consumeFrom_sequential autoAck results 0 i j ri hij hj hri
  simpa [consumeLoopTrace] using hs

/-- Concrete instance of the sequential consume loop: with two successful
manual-ack deliveries, the block of delivery 0 precedes the handler call of
delivery 1. -/
theorem consume_loop_sequential_witness :
    (deliveryTrace false 0 false ++ [ConsumeEvent.handlerCall 1]).Sublist
      (consumeLoopTrace false [false, false]) :=
  consume_loop_sequential false [false, false] 0 1 false (by decide) (by decide) rfl

/-- A message value passed to publish (Go `interface`): a byte slice, a
string, or any other value together with the outcome of `json.Marshal` on
it (`none` when the external JSON encoder fails). -/
inductive Message where
  | bytes (b : List Nat)
  | str (s : String)
  | other (jsonEnc : Option (List Nat))
deriving DecidableEq

/-- UTF-8 bytes of a string (Go conversion from string to byte slice). -/
def utf8Bytes (s : String) : List Nat := s.toUTF8.toList.map (fun b => b.toNat)

/-- The serialization switch of `PublishWithOptions` (rabbitmq.go lines 112
to 130): byte slices pass through unchanged, strings become their UTF-8
bytes, any other value is JSON-encoded and a marshalling failure is
reported as an error. -/
def serializeBody : Message → Except String (List Nat)
  | Message.bytes b => Except.ok b
  | Message.str s => Except.ok (utf8Bytes s)
  | Message.other (some j) => Except.ok j
  | Message.other none => Except.error "failed to marshal message"

/-- Go `models.PublishOptions`.  `Timestamp` is `none` for the zero time
(Go `IsZero`); a nil `Headers` map and an empty one behave identically
under the copy, so both are the empty table.  The Go field named `Type` is
rendered `MsgType`. -/
structure PublishOptions where
  Mandatory : Bool := false
  Immediate : Bool := false
  ContentType : String := ""
  Headers : Table := []
  Priority : Nat := 0
  Expiration : String := ""
  MessageID : String := ""
  Timestamp : Option Nat := none
  MsgType : String := ""
  UserID : String := ""
  AppID : String := ""
deriving DecidableEq

/-- The outbound AMQP envelope (Go `amqp.Publishing`), restricted to the
fields this client sets; `deliveryMode` 2 is persistent. -/
structure Publishing where
  contentType : String
  body : List Nat
  deliveryMode : Nat
  timestamp : Nat
  headers : Table
  messageId : String
  priority : Nat
  expiration : String
  msgType : String
  userId : String
  appId : String
deriving DecidableEq

/-- A broker interaction of the publish path: the send of the envelope on
the channel (Go `channel.PublishWithContext`). -/
inductive PubEvent where
  | brokerPublish (exchange routingKey : String) (mandatory immediate : Bool)
      (p : Publishing)
deriving DecidableEq

/-- Writes a list of key/value pairs into a table in order, each through a
map assignment: the effect of `propagator.Inject` running `AMQPCarrier.Set`
on every injected trace header. -/
def injectAll (t : Table) (ps : List (String × String)) : Table :=
  ps.foldl (fun t1 kv => Table.set t1 kv.1 (AmqpValue.vStr kv.2)) t

/-- Header table of the outbound envelope (rabbitmq.go lines 146 to 168):
a fresh table receives a copy of the caller headers (`maps.Copy`, modelled
as reuse of the table value), then the propagator injects the trace
headers, then a non-empty message id is also recorded under
`x-message-id`. -/
def publishHeaders (inject : List (String × String)) (options : PublishOptions) : Table :=
  let headers := options.Headers
  let headers := injectAll headers inject
  if options.MessageID ≠ "" then
    Table.set headers "x-message-id" (AmqpValue.vStr options.MessageID)
  else headers

/-- Go `PublishWithOptions` (rabbitmq.go lines 102 to 225), with spans and
logging dropped.  `inject` is the list of key/value pairs the configured
propagator writes into the carrier, `brokerOk` the outcome of the channel
send, `now` the wall clock.  Returns the result together with the broker
sends attempted; a serialization failure returns before any broker
contact.  Fields guarded in Go by a non-zero check whose zero value equals
the guarded default (message id, priority, expiration, type, user id, app
id) are assigned directly. -/
def publishWithOptions (inject : List (String × String)) (brokerOk : Bool) (now : Nat)
    (exchange routingKey : String) (message : Message) (options : PublishOptions) :
    Except String Unit × List PubEvent :=
  match serializeBody message with
  | Except.error e => (Except.error e, [])
  | Except.ok body =>
    let contentType := if options.ContentType = "" then "application/json" else options.ContentType
    let p : Publishing :=
      { contentType := contentType
        body := body
        deliveryMode := 2
        timestamp := match options.Timestamp with | some t => t | none => now
        headers := publishHeaders inject options
        messageId := options.MessageID
        priority := options.Priority
        expiration := options.Expiration
        msgType := options.MsgType
        userId := options.UserID
        appId := options.AppID }
    (if brokerOk then Except.ok () else Except.error "failed to publish message",
     [PubEvent.brokerPublish exchange routingKey options.Mandatory options.Immediate p])

/-- Bodies of the envelopes sent to the broker. -/
def sentBodies (es : List PubEvent) : List (List Nat) :=
  es.map fun e => match e with | PubEvent.brokerPublish _ _ _ _ p => p.body

/-- Header tables of the envelopes sent to the broker. -/
def sentHeaders (es : List PubEvent) : List Table :=
  es.map fun e => match e with | PubEvent.brokerPublish _ _ _ _ p => p.headers

/-- C5: a byte-slice message is sent as its bytes unchanged, a string
message as its UTF-8 bytes, an encodable other message as its JSON
encoding, and a message whose JSON encoding fails produces an immediate
serialization error with no broker send at all. -/
theorem publish_serialization (inject : List (String × String)) (brokerOk : Bool)
    (now : Nat) (exchange routingKey : String) (options : PublishOptions) :
    (∀ b, sentBodies (publishWithOptions inject brokerOk now exchange routingKey
        (Message.bytes b) options).2 = [b]) ∧
    (∀ s, sentBodies (publishWithOptions inject brokerOk now exchange routingKey
        (Message.str s) options).2 = [utf8Bytes s]) ∧
    (∀ j, sentBodies (publishWithOptions inject brokerOk now exchange routingKey
        (Message.other (some j)) options).2 = [j]) ∧
    (publishWithOptions inject brokerOk now exchange routingKey
        (Message.other none) options).1 = Except.error "failed to marshal message" ∧
    (publishWithOptions inject brokerOk now exchange routingKey
        (Message.other none) options).2 = [] := by
  refine ⟨fun b => ?_, fun s => ?_, fun j => ?_, ?_, ?_⟩ <;>
    simp [publishWithOptions, serializeBody, sentBodies]

/-- Formalization of the claim that every caller-supplied header entry is
preserved unchanged in the published envelope. -/
def callerHeadersAlwaysPreserved : Prop :=
  ∀ (inject : List (String × String)) (brokerOk : Bool) (now : Nat)
    (exchange routingKey : String) (message : Message) (options : PublishOptions)
    (k : String) (v : AmqpValue),
    Table.get options.Headers k = some v →
    ∀ hs ∈ sentHeaders (publishWithOptions inject brokerOk now exchange routingKey
        message options).2,
      Table.get hs k = some v

/-- C7 counterexample: a caller header whose key collides with an injected
trace header (here `traceparent`) is overwritten by the injection rather
than preserved. -/
theorem publish_headers_not_always_preserved : ¬ callerHeadersAlwaysPreserved := by
  intro h
  have h2 := h [("traceparent", "00-aa")] true 0 "" "" (Message.bytes [])
      { Headers := [("traceparent", AmqpValue.vStr "zzz")] } "traceparent"
      (AmqpValue.vStr "zzz") (by decide)
      [("traceparent", AmqpValue.vStr "00-aa")] (by decide)
  exact absurd h2 (by decide)

theorem injectAll_get_not_mem :
    ∀ (ps : List (String × String)) (t : Table) (k : String),
      k ∉ ps.map Prod.fst → Table.get (injectAll t ps) k = Table.get t k := by
  intro ps
  induction ps with
  | nil => intro t k h; rfl
  | cons hd tl ih =>
    intro t k h
    simp only [List.map_cons, List.mem_cons] at h
    push_neg at h
    have h1 := ih (Table.set t hd.1 (AmqpValue.vStr hd.2)) k h.2
    simp only [injectAll, List.foldl_cons] at h1 ⊢
    rw [h1, Table.get_set_other _ _ _ _ h.1]

theorem injectAll_get_mem :
    ∀ (ps : List (String × String)) (t : Table) (k : String),
      k ∈ ps.map Prod.fst →
      ∃ w, Table.get (injectAll t ps) k = some (AmqpValue.vStr w) ∧ (k, w) ∈ ps := by
  intro ps
  induction ps with
  | nil => intro t k h; simp at h
  | cons hd tl ih =>
    intro t k h
    by_cases hm : k ∈ tl.map Prod.fst
    · obtain ⟨w, hw, hmem⟩ := ih (Table.set t hd.1 (AmqpValue.vStr hd.2)) k hm
      refine ⟨w, ?_, List.mem_cons_of_mem _ hmem⟩
      simpa [injectAll, List.foldl_cons] using hw
    · have hk : k = hd.1 := by
        simp only [List.map_cons, List.mem_cons] at h
        rcases h with h | h
        · exact h
        · exact absurd h hm
      refine ⟨hd.2, ?_, ?_⟩
      · have h1 := injectAll_get_not_mem tl (Table.set t hd.1 (AmqpValue.vStr hd.2)) k hm
        simp only [injectAll, List.foldl_cons] at h1 ⊢
        rw [h1, hk, Table.get_set_self]
      · rw [hk]
        simp

theorem sentHeaders_publish (inject : List (String × String)) (brokerOk : Bool)
    (now : Nat) (exchange routingKey : String) (message : Message)
    (options : PublishOptions) :
    ∀ hs ∈ sentHeaders (publishWithOptions inject brokerOk now exchange routingKey
        message options).2, hs = publishHeaders inject options := by
  intro hs hmem
  cases hm : serializeBody message with
  | error e => simp [publishWithOptions, hm, sentHeaders] at hmem
  | ok body =>
    simp [publishWithOptions, hm, sentHeaders] at hmem
    exact hmem

/-- C7 amended: a caller header entry whose key is neither one of the
injected trace-header keys nor, when a message id is set, `x-message-id`,
is preserved unchanged in the published envelope alongside the injected
headers; a caller entry under an injected key is instead overwritten with
an injected string value. -/
theorem publish_headers_merged (inject : List (String × String)) (brokerOk : Bool)
    (now : Nat) (exchange routingKey : String) (message : Message)
    (options : PublishOptions) (k : String)
    (hmid : options.MessageID ≠ "" → k ≠ "x-message-id") :
    (∀ v, Table.get options.Headers k = some v → k ∉ inject.map Prod.fst →
      ∀ hs ∈ sentHeaders (publishWithOptions inject brokerOk now exchange routingKey
          message options).2, Table.get hs k = some v) ∧
    (k ∈ inject.map Prod.fst →
      ∀ hs ∈ sentHeaders (publishWithOptions inject brokerOk now exchange routingKey
          message options).2,
        ∃ w, Table.get hs k = some (AmqpValue.vStr w) ∧ (k, w) ∈ inject) := by
  have hsh := sentHeaders_publish inject brokerOk now exchange routingKey message options
  constructor
  · intro v hv hni hs hmem
    rw [hsh hs hmem]
    unfold publishHeaders
    by_cases hid : options.MessageID ≠ ""
    · rw [if_pos hid, Table.get_set_other _ _ _ _ (hmid hid),
        injectAll_get_not_mem inject _ _ hni]
      exact hv
    · rw [if_neg hid, injectAll_get_not_mem inject _ _ hni]
      exact hv
  · intro hkin hs hmem
    rw [hsh hs hmem]
    unfold publishHeaders
    by_cases hid : options.MessageID ≠ ""
    · rw [if_pos hid, Table.get_set_other _ _ _ _ (hmid hid)]
      exact injectAll_get_mem inject _ _ hkin
    · rw [if_neg hid]
      exact injectAll_get_mem inject _ _ hkin

/-- Concrete instance of the merged-headers behavior: the caller header
`a = 1` survives in the sent envelope next to an injected `traceparent`. -/
theorem publish_headers_merged_witness :
    Table.get [("a", AmqpValue.vStr "1"), ("traceparent", AmqpValue.vStr "00-aa")] "a"
      = some (AmqpValue.vStr "1") :=
  (publish_headers_merged [("traceparent", "00-aa")] true 0 "" "" (Message.bytes [])
      { Headers := [("a", AmqpValue.vStr "1")] } "a" (by decide)).1
    (AmqpValue.vStr "1") (by decide) (by decide)
    [("a", AmqpValue.vStr "1"), ("traceparent", AmqpValue.vStr "00-aa")] (by decide)

/-- Channel operations of the topology-management paths, recorded as an
explicit trace.  `exchangeDelete` never occurs in the code; it is present
so that the absence of a rollback is statable. -/
inductive BrokerOp where
  | exchangeDeclare (name kind : String) (durable autoDelete internal noWait : Bool)
      (args : Table)
  | exchangeDelete (name : String)
  | queueDeclare (name : String) (durable autoDelete exclusive noWait : Bool)
      (args : Table)
  | queueDeclarePassive (name : String)
  | queueDelete (name : String) (ifUnused ifEmpty noWait : Bool)
  | queueBind (queue routingKey exchange : String) (noWait : Bool) (args : Table)
deriving DecidableEq

/-- Go `models.QueueOptions`.  `MaxRetries`, `MessageTTL` and `MaxLength`
are Go `int`, `MaxPriority` a Go `uint8`; a nil `AdditionalArgs` map is the
empty table. -/
structure QueueOptions where
  Durable : Bool := false
  AutoDelete : Bool := false
  Exclusive : Bool := false
  NoWait : Bool := false
  DLXName : String := ""
  DLXRoutingKey : String := ""
  MaxRetries : Int := 0
  MessageTTL : Int := 0
  MaxLength : Int := 0
  MaxPriority : Nat := 0
  AdditionalArgs : Table := []
deriving DecidableEq

/-- Dead-letter block of the argument composition of `DeclareQueueWithDLX`
(rabbitmq.go lines 500 to 511): when a DLX name is set, record it and the
routing key, which defaults to the queue name. -/
def argsWithDLX (queue : String) (o : QueueOptions) (args : Table) : Table :=
  if o.DLXName ≠ "" then
    Table.set (Table.set args "x-dead-letter-exchange" (AmqpValue.vStr o.DLXName))
      "x-dead-letter-routing-key"
      (AmqpValue.vStr (if o.DLXRoutingKey = "" then queue else o.DLXRoutingKey))
  else args

/-- TTL block (rabbitmq.go lines 514 to 517). -/
def argsWithTTL (o : QueueOptions) (args : Table) : Table :=
  if o.MessageTTL > 0 then Table.set args "x-message-ttl" (AmqpValue.vInt o.MessageTTL)
  else args

/-- Max-length block (rabbitmq.go lines 520 to 523). -/
def argsWithMaxLength (o : QueueOptions) (args : Table) : Table :=
  if o.MaxLength > 0 then Table.set args "x-max-length" (AmqpValue.vInt o.MaxLength)
  else args

/-- Max-priority block (rabbitmq.go lines 526 to 529). -/
def argsWithMaxPriority (o : QueueOptions) (args : Table) : Table :=
  if o.MaxPriority > 0 then Table.set args "x-max-priority" (AmqpValue.vInt (o.MaxPriority : Int))
  else args

/-- Max-retries block (rabbitmq.go lines 532 to 537): set only when positive
and the entry is still nil. -/
def argsWithMaxRetries (o : QueueOptions) (args : Table) : Table :=
  if o.MaxRetries > 0 then
    if Table.isNilAt args "x-max-retries" then
      Table.set args "x-max-retries" (AmqpValue.vInt o.MaxRetries)
    else args
  else args

/-- Argument-table composition of `DeclareQueueWithDLX` (rabbitmq.go lines
491 to 537): copy the caller arguments (modelled as reuse of the table
value), then run the dead-letter, TTL, max-length, max-priority and
max-retries blocks in the order of the source. -/
def buildQueueArgs (queue : String) (o : QueueOptions) : Table :=
  argsWithMaxRetries o (argsWithMaxPriority o (argsWithMaxLength o
    (argsWithTTL o (argsWithDLX queue o o.AdditionalArgs))))

/-- Go `DeclareQueueWithDLX` (rabbitmq.go lines 480 to 563): declares the
queue with the composed argument table; `ch` decides whether the channel
call succeeds. -/
def declareQueueWithDLX (ch : BrokerOp → Bool) (queue : String) (o : QueueOptions) :
    Except String Unit × List BrokerOp :=
  let op := BrokerOp.queueDeclare queue o.Durable o.AutoDelete o.Exclusive o.NoWait
    (buildQueueArgs queue o)
  (if ch op then Except.ok () else Except.error "failed to declare queue with DLX", [op])

theorem argsWithDLX_get_other (queue : String) (o : QueueOptions) (args : Table)
    (k : String) (h1 : k ≠ "x-dead-letter-exchange") (h2 : k ≠ "x-dead-letter-routing-key") :
    Table.get (argsWithDLX queue o args) k = Table.get args k := by
  unfold argsWithDLX
  by_cases hc : o.DLXName ≠ ""
  · rw [if_pos hc, Table.get_set_other _ _ _ _ h2, Table.get_set_other _ _ _ _ h1]
  · rw [if_neg hc]

theorem argsWithTTL_get_other (o : QueueOptions) (args : Table) (k : String)
    (h : k ≠ "x-message-ttl") :
    Table.get (argsWithTTL o args) k = Table.get args k := by
  unfold argsWithTTL
  split_ifs with hc
  · rw [Table.get_set_other _ _ _ _ h]
  · rfl

theorem argsWithMaxLength_get_other (o : QueueOptions) (args : Table) (k : String)
    (h : k ≠ "x-max-length") :
    Table.get (argsWithMaxLength o args) k = Table.get args k := by
  unfold argsWithMaxLength
  split_ifs with hc
  · rw [Table.get_set_other _ _ _ _ h]
  · rfl

theorem argsWithMaxPriority_get_other (o : QueueOptions) (args : Table) (k : String)
    (h : k ≠ "x-max-priority") :
    Table.get (argsWithMaxPriority o args) k = Table.get args k := by
  unfold argsWithMaxPriority
  split_ifs with hc
  · rw [Table.get_set_other _ _ _ _ h]
  · rfl

theorem argsWithMaxRetries_get_other (o : QueueOptions) (args : Table) (k : String)
    (h : k ≠ "x-max-retries") :
    Table.get (argsWithMaxRetries o args) k = Table.get args k := by
  unfold argsWithMaxRetries
  split_ifs with hc1 hc2
  · rw [Table.get_set_other _ _ _ _ h]
  · rfl
  · rfl

theorem argsWithMaxRetries_keeps (o : QueueOptions) (args : Table) (v : AmqpValue)
    (hv : v ≠ AmqpValue.vNil) (hg : Table.get args "x-max-retries" = some v) :
    Table.get (argsWithMaxRetries o args) "x-max-retries" = some v := by
  unfold argsWithMaxRetries
  have hnil : Table.isNilAt args "x-max-retries" = false := by
    unfold Table.isNilAt
    rw [hg]
    cases v with
    | vStr s => rfl
    | vInt n => rfl
    | vNil => exact absurd rfl hv
    | vOther g => rfl
  split_ifs with hc1 hc2
  · rw [hnil] at hc2
    cases hc2
  · exact hg
  · exact hg


/-- The example options of the specification: DLX name `orders-dlx`, three
retries, one minute TTL. -/
def ordersOptions : QueueOptions :=
  { DLXName := "orders-dlx", MaxRetries := 3, MessageTTL := 60000 }

/-- C4: the composed argument table carries the dead-letter entries when a
DLX name is set (routing key defaulting to the queue name), the TTL, length
and priority entries when positive, leaves every other key at the caller
value, is the table the queue is declared with, and on the `orders` example
of the specification contains the three stated entries. -/
theorem declareQueueWithDLX_args (queue : String) (o : QueueOptions) :
    (o.DLXName ≠ "" →
      Table.get (buildQueueArgs queue o) "x-dead-letter-exchange"
          = some (AmqpValue.vStr o.DLXName) ∧
      Table.get (buildQueueArgs queue o) "x-dead-letter-routing-key"
          = some (AmqpValue.vStr (if o.DLXRoutingKey = "" then queue else o.DLXRoutingKey))) ∧
    (o.MessageTTL > 0 →
      Table.get (buildQueueArgs queue o) "x-message-ttl" = some (AmqpValue.vInt o.MessageTTL)) ∧
    (o.MaxLength > 0 →
      Table.get (buildQueueArgs queue o) "x-max-length" = some (AmqpValue.vInt o.MaxLength)) ∧
    (o.MaxPriority > 0 →
      Table.get (buildQueueArgs queue o) "x-max-priority"
          = some (AmqpValue.vInt (o.MaxPriority : Int))) ∧
    (∀ k, k ∉ ["x-dead-letter-exchange", "x-dead-letter-routing-key", "x-message-ttl",
        "x-max-length", "x-max-priority", "x-max-retries"] →
      Table.get (buildQueueArgs queue o) k = Table.get o.AdditionalArgs k) ∧
    (∀ ch, (declareQueueWithDLX ch queue o).2
        = [BrokerOp.queueDeclare queue o.Durable o.AutoDelete o.Exclusive o.NoWait
            (buildQueueArgs queue o)]) ∧
    (Table.get (buildQueueArgs "orders" ordersOptions) "x-dead-letter-exchange"
        = some (AmqpValue.vStr "orders-dlx") ∧
     Table.get (buildQueueArgs "orders" ordersOptions) "x-dead-letter-routing-key"
        = some (AmqpValue.vStr "orders") ∧
     Table.get (buildQueueArgs "orders" ordersOptions) "x-message-ttl"
        = some (AmqpValue.vInt 60000)) := by
  refine ⟨?_, ?_, ?_, ?_, ?_, fun ch => rfl, by decide⟩
  · intro hdlx
    unfold buildQueueArgs
    rw [argsWithMaxRetries_get_other _ _ _ (by decide),
      argsWithMaxPriority_get_other _ _ _ (by decide),
      argsWithMaxLength_get_other _ _ _ (by decide),
      argsWithTTL_get_other _ _ _ (by decide),
      argsWithMaxRetries_get_other _ _ _ (by decide),
      argsWithMaxPriority_get_other _ _ _ (by decide),
      argsWithMaxLength_get_other _ _ _ (by decide),
      argsWithTTL_get_other _ _ _ (by decide)]
    unfold argsWithDLX
    rw [if_pos hdlx]
    constructor
    · rw [Table.get_set_other _ _ _ _ (by decide), Table.get_set_self]
    · rw [Table.get_set_self]
  · intro h
    unfold buildQueueArgs
    rw [argsWithMaxRetries_get_other _ _ _ (by decide),
      argsWithMaxPriority_get_other _ _ _ (by decide),
      argsWithMaxLength_get_other _ _ _ (by decide)]
    unfold argsWithTTL
    rw [if_pos h, Table.get_set_self]
  · intro h
    unfold buildQueueArgs
    rw [argsWithMaxRetries_get_other _ _ _ (by decide),
      argsWithMaxPriority_get_other _ _ _ (by decide)]
    unfold argsWithMaxLength
    rw [if_pos h, Table.get_set_self]
  · intro h
    unfold buildQueueArgs
    rw [argsWithMaxRetries_get_other _ _ _ (by decide)]
    unfold argsWithMaxPriority
    rw [if_pos h, Table.get_set_self]
  · intro k hk
    simp only [List.mem_cons, List.not_mem_nil, or_false] at hk
    push_neg at hk
    obtain ⟨h1, h2, h3, h4, h5, h6⟩ := hk
    unfold buildQueueArgs
    rw [argsWithMaxRetries_get_other _ _ _ h6,
      argsWithMaxPriority_get_other _ _ _ h5,
      argsWithMaxLength_get_other _ _ _ h4,
      argsWithTTL_get_other _ _ _ h3,
      argsWithDLX_get_other _ _ _ _ h1 h2]

/-- Concrete instance of the argument composition, on the `orders` example
of the specification. -/
theorem declareQueueWithDLX_args_witness :
    Table.get (buildQueueArgs "orders" ordersOptions) "x-dead-letter-exchange"
        = some (AmqpValue.vStr "orders-dlx") ∧
    Table.get (buildQueueArgs "orders" ordersOptions) "x-message-ttl"
        = some (AmqpValue.vInt 60000) :=
  ⟨((declareQueueWithDLX_args "orders" ordersOptions).1 (by decide)).1,
   (declareQueueWithDLX_args "orders" ordersOptions).2.1 (by decide)⟩

/-- C10: a non-nil caller entry under `x-max-retries` is never overwritten
by a positive `MaxRetries`, while a set DLX name, a positive TTL, a
positive max length and a positive max priority do overwrite caller entries
under their respective keys. -/
theorem maxRetries_not_overwritten (queue : String) (o : QueueOptions) :
    (∀ v, v ≠ AmqpValue.vNil → Table.get o.AdditionalArgs "x-max-retries" = some v →
      Table.get (buildQueueArgs queue o) "x-max-retries" = some v) ∧
    (∀ w, Table.get o.AdditionalArgs "x-dead-letter-exchange" = some w → o.DLXName ≠ "" →
      Table.get (buildQueueArgs queue o) "x-dead-letter-exchange"
        = some (AmqpValue.vStr o.DLXName)) ∧
    (∀ w, Table.get o.AdditionalArgs "x-dead-letter-routing-key" = some w → o.DLXName ≠ "" →
      Table.get (buildQueueArgs queue o) "x-dead-letter-routing-key"
        = some (AmqpValue.vStr (if o.DLXRoutingKey = "" then queue else o.DLXRoutingKey))) ∧
    (∀ w, Table.get o.AdditionalArgs "x-message-ttl" = some w → o.MessageTTL > 0 →
      Table.get (buildQueueArgs queue o) "x-message-ttl" = some (AmqpValue.vInt o.MessageTTL)) ∧
    (∀ w, Table.get o.AdditionalArgs "x-max-length" = some w → o.MaxLength > 0 →
      Table.get (buildQueueArgs queue o) "x-max-length" = some (AmqpValue.vInt o.MaxLength)) ∧
    (∀ w, Table.get o.AdditionalArgs "x-max-priority" = some w → o.MaxPriority > 0 →
      Table.get (buildQueueArgs queue o) "x-max-priority"
        = some (AmqpValue.vInt (o.MaxPriority : Int))) := by
  refine ⟨?_, ?_, ?_, ?_, ?_, ?_⟩
  · intro v hv hg
    unfold buildQueueArgs
    apply argsWithMaxRetries_keeps _ _ _ hv
    rw [argsWithMaxPriority_get_other _ _ _ (by decide),
      argsWithMaxLength_get_other _ _ _ (by decide),
      argsWithTTL_get_other _ _ _ (by decide),
      argsWithDLX_get_other _ _ _ _ (by decide) (by decide)]
    exact hg
  · intro w hw hdlx
    unfold buildQueueArgs
    rw [argsWithMaxRetries_get_other _ _ _ (by decide),
      argsWithMaxPriority_get_other _ _ _ (by decide),
      argsWithMaxLength_get_other _ _ _ (by decide),
      argsWithTTL_get_other _ _ _ (by decide)]
    unfold argsWithDLX
    rw [if_pos hdlx, Table.get_set_other _ _ _ _ (by decide), Table.get_set_self]
  · intro w hw hdlx
    unfold buildQueueArgs
    rw [argsWithMaxRetries_get_other _ _ _ (by decide),
      argsWithMaxPriority_get_other _ _ _ (by decide),
      argsWithMaxLength_get_other _ _ _ (by decide),
      argsWithTTL_get_other _ _ _ (by decide)]
    unfold argsWithDLX
    rw [if_pos hdlx, Table.get_set_self]
  · intro w hw h
    unfold buildQueueArgs
    rw [argsWithMaxRetries_get_other _ _ _ (by decide),
      argsWithMaxPriority_get_other _ _ _ (by decide),
      argsWithMaxLength_get_other _ _ _ (by decide)]
    unfold argsWithTTL
    rw [if_pos h, Table.get_set_self]
  · intro w hw h
    unfold buildQueueArgs
    rw [argsWithMaxRetries_get_other _ _ _ (by decide),
      argsWithMaxPriority_get_other _ _ _ (by decide)]
    unfold argsWithMaxLength
    rw [if_pos h, Table.get_set_self]
  · intro w hw h
    unfold buildQueueArgs
    rw [argsWithMaxRetries_get_other _ _ _ (by decide)]
    unfold argsWithMaxPriority
    rw [if_pos h, Table.get_set_self]

/-- Concrete instance of the overwrite discipline: a caller
`x-max-retries = 5` survives a positive `MaxRetries`, while a caller
`x-dead-letter-exchange` entry is overwritten by the configured DLX name. -/
theorem maxRetries_not_overwritten_witness :
    Table.get (buildQueueArgs "q"
        { DLXName := "dlx", MaxRetries := 3,
          AdditionalArgs := [("x-max-retries", AmqpValue.vInt 5),
            ("x-dead-letter-exchange", AmqpValue.vStr "old")] }) "x-max-retries"
      = some (AmqpValue.vInt 5) ∧
    Table.get (buildQueueArgs "q"
        { DLXName := "dlx", MaxRetries := 3,
          AdditionalArgs := [("x-max-retries", AmqpValue.vInt 5),
            ("x-dead-letter-exchange", AmqpValue.vStr "old")] }) "x-dead-letter-exchange"
      = some (AmqpValue.vStr "dlx") :=
  ⟨(maxRetries_not_overwritten "q"
      { DLXName := "dlx", MaxRetries := 3,
        AdditionalArgs := [("x-max-retries", AmqpValue.vInt 5),
          ("x-dead-letter-exchange", AmqpValue.vStr "old")] }).1
      (AmqpValue.vInt 5) (by decide) (by decide),
   (maxRetries_not_overwritten "q"
      { DLXName := "dlx", MaxRetries := 3,
        AdditionalArgs := [("x-max-retries", AmqpValue.vInt 5),
          ("x-dead-letter-exchange", AmqpValue.vStr "old")] }).2.1
      (AmqpValue.vStr "old") (by decide) (by decide)⟩

/-- Go `models.DLXOptions`; a nil `Args` map is the empty table. -/
structure DLXOptions where
  Kind : String := ""
  Durable : Bool := false
  AutoDelete : Bool := false
  Internal : Bool := false
  NoWait : Bool := false
  Args : Table := []
deriving DecidableEq

/-- Go `models.DLQOptions`; a nil `Args` map is the empty table. -/
structure DLQOptions where
  Durable : Bool := false
  AutoDelete : Bool := false
  Exclusive : Bool := false
  NoWait : Bool := false
  Args : Table := []
deriving DecidableEq

/-- Go `DeclareDLX` (rabbitmq.go lines 566 to 608): the exchange kind
defaults to `direct`, then the exchange is declared; `ch` decides whether
each channel call succeeds. -/
def declareDLX (ch : BrokerOp → Bool) (dlxName : String) (options : DLXOptions) :
    Except String Unit × List BrokerOp :=
  (if ch (BrokerOp.exchangeDeclare dlxName
        (if options.Kind = "" then "direct" else options.Kind)
        options.Durable options.AutoDelete options.Internal options.NoWait options.Args)
    then Except.ok () else Except.error "failed to declare DLX",
   [BrokerOp.exchangeDeclare dlxName (if options.Kind = "" then "direct" else options.Kind)
      options.Durable options.AutoDelete options.Internal options.NoWait options.Args])

/-- Go `DeclareDLQ` (rabbitmq.go lines 610 to 664): declare the queue, and
when that succeeds bind it to the DLX using the DLQ name itself as the
routing key. -/
def declareDLQ (ch : BrokerOp → Bool) (dlqName dlxName : String) (options : DLQOptions) :
    Except String Unit × List BrokerOp :=
  if ch (BrokerOp.queueDeclare dlqName options.Durable options.AutoDelete
      options.Exclusive options.NoWait options.Args) then
    (if ch (BrokerOp.queueBind dlqName dlqName dlxName options.NoWait []) then Except.ok ()
     else Except.error "failed to bind DLQ to DLX",
     [BrokerOp.queueDeclare dlqName options.Durable options.AutoDelete options.Exclusive
        options.NoWait options.Args,
      BrokerOp.queueBind dlqName dlqName dlxName options.NoWait []])
  else
    (Except.error "failed to declare DLQ",
     [BrokerOp.queueDeclare dlqName options.Durable options.AutoDelete options.Exclusive
        options.NoWait options.Args])

/-- DLQ options built inside `SetupDLXForQueue` (rabbitmq.go lines 684 to
689): durability and no-wait follow the DLX options, the DLQ never
auto-deletes and is not exclusive. -/
def setupDlqOptions (options : DLXOptions) : DLQOptions :=
  { Durable := options.Durable, AutoDelete := false, Exclusive := false,
    NoWait := options.NoWait, Args := [] }

/-- Dead-letter arguments written on the source queue by `SetupDLXForQueue`
(rabbitmq.go lines 698 to 700): the dead-letter routing key is the DLQ
name. -/
def setupArgs (dlxName dlqName : String) : Table :=
  Table.set (Table.set Table.empty "x-dead-letter-exchange" (AmqpValue.vStr dlxName))
    "x-dead-letter-routing-key" (AmqpValue.vStr dlqName)

/-- Go `SetupDLXForQueue` (rabbitmq.go lines 667 to 767): declare the DLX,
declare and bind the DLQ, then probe the source queue passively; when it
exists, delete it (a failure here is only logged) and redeclare it with the
dead-letter arguments, otherwise just declare it with those arguments.  The
trace records every channel call attempted. -/
def setupDLXForQueue (ch : BrokerOp → Bool) (queueName dlxName dlqName : String)
    (options : DLXOptions) : Except String Unit × List BrokerOp :=
  match (declareDLX ch dlxName options).1 with
  | Except.error e =>
    (Except.error ("failed to setup DLX: " ++ e), (declareDLX ch dlxName options).2)
  | Except.ok _ =>
    match (declareDLQ ch dlqName dlxName (setupDlqOptions options)).1 with
    | Except.error e =>
      (Except.error ("failed to setup DLQ: " ++ e),
       (declareDLX ch dlxName options).2
         ++ (declareDLQ ch dlqName dlxName (setupDlqOptions options)).2)
    | Except.ok _ =>
      if ch (BrokerOp.queueDeclarePassive queueName) then
        (if ch (BrokerOp.queueDeclare queueName options.Durable false false false
              (setupArgs dlxName dlqName)) then Except.ok ()
         else Except.error "failed to recreate queue with DLX",
         (declareDLX ch dlxName options).2
           ++ (declareDLQ ch dlqName dlxName (setupDlqOptions options)).2
           ++ [BrokerOp.queueDeclarePassive queueName,
               BrokerOp.queueDelete queueName false false false,
               BrokerOp.queueDeclare queueName options.Durable false false false
                 (setupArgs dlxName dlqName)])
      else
        (if ch (BrokerOp.queueDeclare queueName options.Durable false false false
              (setupArgs dlxName dlqName)) then Except.ok ()
         else Except.error "failed to declare queue with DLX",
         (declareDLX ch dlxName options).2
           ++ (declareDLQ ch dlqName dlxName (setupDlqOptions options)).2
           ++ [BrokerOp.queueDeclarePassive queueName,
               BrokerOp.queueDeclare queueName options.Durable false false false
                 (setupArgs dlxName dlqName)])

theorem declareDLQ_ok_trace (ch : BrokerOp → Bool) (dlqName dlxName : String)
    (o : DLQOptions) (h : (declareDLQ ch dlqName dlxName o).1 = Except.ok ()) :
    (declareDLQ ch dlqName dlxName o).2 =
      [BrokerOp.queueDeclare dlqName o.Durable o.AutoDelete o.Exclusive o.NoWait o.Args,
       BrokerOp.queueBind dlqName dlqName dlxName o.NoWait []] := by
  unfold declareDLQ at h ⊢
  by_cases hd : ch (BrokerOp.queueDeclare dlqName o.Durable o.AutoDelete
      o.Exclusive o.NoWait o.Args)
  · rw [if_pos hd]
  · rw [if_neg hd] at h
    simp at h

theorem declareDLQ_trace_ops (ch : BrokerOp → Bool) (dlqName dlxName : String)
    (o : DLQOptions) :
    ∀ e ∈ (declareDLQ ch dlqName dlxName o).2,
      e = BrokerOp.queueDeclare dlqName o.Durable o.AutoDelete o.Exclusive o.NoWait o.Args ∨
      e = BrokerOp.queueBind dlqName dlqName dlxName o.NoWait [] := by
  unfold declareDLQ
  by_cases hd : ch (BrokerOp.queueDeclare dlqName o.Durable o.AutoDelete
      o.Exclusive o.NoWait o.Args)
  · rw [if_pos hd]
    intro e he
    simpa using he
  · rw [if_neg hd]
    intro e he
    simp at he
    exact Or.inl he

/-- C3: once steps 1 and 2 have succeeded and the passive probe finds the
source queue, the declare with dead-letter arguments is attempted whatever
the outcome of the delete call, the whole operation fails exactly when that
final declare fails, and the trace contains no exchange deletion and no
queue deletion other than of the source queue, so the DLX and DLQ of steps
1 and 2 are never rolled back. -/
theorem setup_dlx_step3_best_effort (ch : BrokerOp → Bool)
    (queueName dlxName dlqName : String) (options : DLXOptions)
    (h1 : (declareDLX ch dlxName options).1 = Except.ok ())
    (h2 : (declareDLQ ch dlqName dlxName (setupDlqOptions options)).1 = Except.ok ())
    (hex : ch (BrokerOp.queueDeclarePassive queueName) = true) :
    (BrokerOp.queueDeclare queueName options.Durable false false false
        (setupArgs dlxName dlqName)
        ∈ (setupDLXForQueue ch queueName dlxName dlqName options).2) ∧
    ((setupDLXForQueue ch queueName dlxName dlqName options).1 =
      if ch (BrokerOp.queueDeclare queueName options.Durable false false false
          (setupArgs dlxName dlqName)) then Except.ok ()
      else Except.error "failed to recreate queue with DLX") ∧
    (∀ e ∈ (setupDLXForQueue ch queueName dlxName dlqName options).2,
      (∀ n, e ≠ BrokerOp.exchangeDelete n) ∧
      (∀ n b1 b2 b3, e = BrokerOp.queueDelete n b1 b2 b3 → n = queueName)) := by
  have hred : setupDLXForQueue ch queueName dlxName dlqName options =
      (if ch (BrokerOp.queueDeclare queueName options.Durable false false false
            (setupArgs dlxName dlqName)) then Except.ok ()
       else Except.error "failed to recreate queue with DLX",
       (declareDLX ch dlxName options).2
         ++ (declareDLQ ch dlqName dlxName (setupDlqOptions options)).2
         ++ [BrokerOp.queueDeclarePassive queueName,
             BrokerOp.queueDelete queueName false false false,
             BrokerOp.queueDeclare queueName options.Durable false false false
               (setupArgs dlxName dlqName)]) := by
    unfold setupDLXForQueue
    rw [h1, h2, hex]
    rfl
  refine ⟨?_, ?_, ?_⟩
  · rw [hred]
    simp
  · rw [hred]
  · rw [hred]
    intro e he
    simp only [List.mem_append] at he
    rcases he with (he | he) | he
    · have hdlx : e = BrokerOp.exchangeDeclare dlxName
          (if options.Kind = "" then "direct" else options.Kind)
          options.Durable options.AutoDelete options.Internal options.NoWait
          options.Args := by
        simpa [declareDLX] using he
      subst hdlx
      exact ⟨fun n => by simp, fun n b1 b2 b3 hh => by cases hh⟩
    · rcases declareDLQ_trace_ops ch dlqName dlxName (setupDlqOptions options) e he
        with hh | hh <;> subst hh
      · exact ⟨fun n => by simp, fun n b1 b2 b3 hh => by cases hh⟩
      · exact ⟨fun n => by simp, fun n b1 b2 b3 hh => by cases hh⟩
    · simp only [List.mem_cons, List.not_mem_nil, or_false] at he
      rcases he with hh | hh | hh <;> subst hh
      · exact ⟨fun n => by simp, fun n b1 b2 b3 hh => by cases hh⟩
      · refine ⟨fun n => by simp, fun n b1 b2 b3 hh => ?_⟩
        cases hh
        rfl
      · exact ⟨fun n => by simp, fun n b1 b2 b3 hh => by cases hh⟩

/-- A channel behavior exercising the degraded path: queue deletions fail,
declaring the queue named `orders` fails, everything else succeeds. -/
def chStubborn : BrokerOp → Bool := fun op =>
  match op with
  | BrokerOp.queueDelete _ _ _ _ => false
  | BrokerOp.queueDeclare n _ _ _ _ _ => n != "orders"
  | _ => true

/-- Concrete instance of the best-effort step 3: with a failing delete and
a failing final declare, the declare is still attempted and the operation
reports the recreate failure. -/
theorem setup_dlx_step3_best_effort_witness :
    (BrokerOp.queueDeclare "orders" false false false false
        (setupArgs "orders-dlx" "orders-dlq")
        ∈ (setupDLXForQueue chStubborn "orders" "orders-dlx" "orders-dlq" {}).2) ∧
    (setupDLXForQueue chStubborn "orders" "orders-dlx" "orders-dlq" {}).1
        = Except.error "failed to recreate queue with DLX" := by
  have h := setup_dlx_step3_best_effort chStubborn "orders" "orders-dlx" "orders-dlq" {}
    rfl rfl (by decide)
  exact ⟨h.1, h.2.1.trans rfl⟩

/-- C8: the DLQ is bound to the DLX with the DLQ name itself as routing
key, and the dead-letter arguments the setup writes on the source queue
use that same DLQ name as `x-dead-letter-routing-key`, so the binding
routing key and the referenced dead-letter routing key always agree. -/
theorem dlq_binding_matches_routing_key (ch : BrokerOp → Bool)
    (queueName dlxName dlqName : String) (options : DLXOptions)
    (h1 : (declareDLX ch dlxName options).1 = Except.ok ())
    (h2 : (declareDLQ ch dlqName dlxName (setupDlqOptions options)).1 = Except.ok ()) :
    (BrokerOp.queueBind dlqName dlqName dlxName options.NoWait []
        ∈ (setupDLXForQueue ch queueName dlxName dlqName options).2) ∧
    (BrokerOp.queueDeclare queueName options.Durable false false false
        (setupArgs dlxName dlqName)
        ∈ (setupDLXForQueue ch queueName dlxName dlqName options).2) ∧
    Table.get (setupArgs dlxName dlqName) "x-dead-letter-routing-key"
        = some (AmqpValue.vStr dlqName) := by
  have hbind : BrokerOp.queueBind dlqName dlqName dlxName options.NoWait []
      ∈ (declareDLQ ch dlqName dlxName (setupDlqOptions options)).2 := by
    rw [declareDLQ_ok_trace ch dlqName dlxName (setupDlqOptions options) h2]
    simp [setupDlqOptions]
  unfold setupDLXForQueue
  rw [h1, h2]
  by_cases hpass : ch (BrokerOp.queueDeclarePassive queueName)
  · rw [if_pos hpass]
    refine ⟨?_, ?_, Table.get_set_self _ _ _⟩
    · simp only [List.mem_append]
      exact Or.inl (Or.inr hbind)
    · simp
  · rw [if_neg hpass]
    refine ⟨?_, ?_, Table.get_set_self _ _ _⟩
    · simp only [List.mem_append]
      exact Or.inl (Or.inr hbind)
    · simp

/-- Concrete instance of the binding convention, on the `orders` names. -/
theorem dlq_binding_matches_routing_key_witness :
    BrokerOp.queueBind "orders-dlq" "orders-dlq" "orders-dlx" false []
        ∈ (setupDLXForQueue (fun _ => true) "orders" "orders-dlx" "orders-dlq" {}).2 :=
  (dlq_binding_matches_routing_key (fun _ => true) "orders" "orders-dlx" "orders-dlq" {}
      rfl rfl).1

/-- State of the two closable resources at `Close` (rabbitmq.go lines 770
to 800): each of channel and connection is either absent (nil) or present
together with the outcome of its Close call, `none` meaning a clean close
and `some e` a failure with message `e`. -/
structure CloseBehavior where
  channel : Option (Option String)
  conn : Option (Option String)

/-- The close calls attempted by `Close`. -/
inductive CloseOp where
  | closeChannel
  | closeConn
deriving DecidableEq

/-- Go `Close` (rabbitmq.go lines 770 to 800): close the channel when
present, collecting a failure message; then close the connection when
present, collecting a failure message; return the collected failures
together when there are any.  The Go code wraps the slice of errors in one
error value; the error payload here is that list. -/
def closeClient (b : CloseBehavior) : Except (List String) Unit × List CloseOp :=
  let step1 : List String × List CloseOp :=
    match b.channel with
    | none => ([], [])
    | some none => ([], [CloseOp.closeChannel])
    | some (some e) => (["failed to close channel: " ++ e], [CloseOp.closeChannel])
  let step2 : List String × List CloseOp :=
    match b.conn with
    | none => (step1.1, step1.2)
    | some none => (step1.1, step1.2 ++ [CloseOp.closeConn])
    | some (some e) =>
      (step1.1 ++ ["failed to close connection: " ++ e], step1.2 ++ [CloseOp.closeConn])
  if step2.1.isEmpty then (Except.ok (), step2.2) else (Except.error step2.1, step2.2)

/-- C6: the channel close is attempted first and the connection close is
attempted afterwards whenever a connection is present, whatever the outcome
of the channel close; when both closes fail the returned error carries both
sub-errors, channel first. -/
theorem close_channel_then_conn (b : CloseBehavior) :
    ((closeClient b).2 =
      (match b.channel with | none => [] | some _ => [CloseOp.closeChannel]) ++
      (match b.conn with | none => [] | some _ => [CloseOp.closeConn])) ∧
    (∀ e1 e2, b.channel = some (some e1) → b.conn = some (some e2) →
      (closeClient b).1 = Except.error
        ["failed to close channel: " ++ e1, "failed to close connection: " ++ e2]) := by
  obtain ⟨ch, co⟩ := b
  constructor
  · rcases ch with _ | ch1
    · rcases co with _ | co1
      · rfl
      · rcases co1 with _ | e2 <;> rfl
    · rcases ch1 with _ | e1
      · rcases co with _ | co1
        · rfl
        · rcases co1 with _ | e2 <;> rfl
      · rcases co with _ | co1
        · rfl
        · rcases co1 with _ | e2 <;> rfl
  · intro e1 e2 h1 h2
    rcases ch with _ | ch1
    · cases h1
    · rcases ch1 with _ | x1
      · cases h1
      · rcases co with _ | co1
        · cases h2
        · rcases co1 with _ | x2
          · cases h2
          · cases h1
            cases h2
            rfl

/-- Concrete instance of the close discipline: with both closes failing,
both operations are attempted in order and both failures are reported. -/
theorem close_channel_then_conn_witness :
    (closeClient { channel := some (some "te"), conn := some (some "tc") }).1
      = Except.error ["failed to close channel: te", "failed to close connection: tc"] ∧
    (closeClient { channel := some (some "te"), conn := some (some "tc") }).2
      = [CloseOp.closeChannel, CloseOp.closeConn] :=
  ⟨(close_channel_then_conn { channel := some (some "te"), conn := some (some "tc") }).2
      "te" "tc" rfl rfl,
   ((close_channel_then_conn { channel := some (some "te"), conn := some (some "tc") }).1).trans
      rfl⟩

/-- C9: the carrier lookup returns the stored string when the key is bound
to a string-typed value, and the empty string in every other situation
(nil table, absent key, or a value of another type); being a total Lean
function it never fails. -/
theorem amqpCarrier_get_spec (c : AMQPCarrier) (key : String) :
    (∀ t s, c.Headers = some t → Table.get t key = some (AmqpValue.vStr s) →
      c.Get key = s) ∧
    ((∀ t, c.Headers = some t → ∀ s, Table.get t key ≠ some (AmqpValue.vStr s)) →
      c.Get key = "") := by
  constructor
  · intro t s ht hv
    simp [AMQPCarrier.Get, ht, hv]
  · intro h
    match hh : c.Headers with
    | none => simp [AMQPCarrier.Get, hh]
    | some t =>
      match hv : Table.get t key with
      | none => simp [AMQPCarrier.Get, hh, hv]
      | some (AmqpValue.vStr s) => exact absurd hv (h t hh s)
      | some (AmqpValue.vInt n) => simp [AMQPCarrier.Get, hh, hv]
      | some AmqpValue.vNil => simp [AMQPCarrier.Get, hh, hv]
      | some (AmqpValue.vOther g) => simp [AMQPCarrier.Get, hh, hv]

/-- Concrete instances of the carrier lookup: a bound string key is
returned, a nil table yields the empty string. -/
theorem amqpCarrier_get_spec_witness :
    AMQPCarrier.Get { Headers := some [("k", AmqpValue.vStr "v")] } "k" = "v" ∧
    AMQPCarrier.Get { Headers := none } "k" = "" :=
  ⟨(amqpCarrier_get_spec { Headers := some [("k", AmqpValue.vStr "v")] } "k").1
      [("k", AmqpValue.vStr "v")] "v" rfl (by decide),
   (amqpCarrier_get_spec { Headers := none } "k").2 (fun t ht => by cases ht)⟩
